import Mathlib

/-!
Verification development for the go-tcpws frame codec and connection layer.

The Go source (package gotcpws) is shallowly embedded:

* byte streams (`bufio.Reader`/`bytes.Buffer`) become `List Nat` of byte values;
* the stateful decode/read operations become pure functions threading the
  remaining stream explicitly;
* Go's `(value, error)` multi-returns become `Except Err _ × List Nat` (the
  second component is the stream position after the call) or tuples carrying
  an `Option Err`;
* the loop in `Conn.Read` is embedded with an explicit fuel parameter
  (`Err.noFuel` is an artificial out-of-fuel marker never reached with the
  fuel supplied by `Conn.Read`).

All functions mirror the source in `frame.go` / `conn.go` of the repository.
-/

namespace Gotcpws

/-- Errors of the embedded code.  `eof` stands for Go's `io.EOF` (returned both
by exhausted readers and by the frame handler on a close frame, exactly as in
the source); the remaining constructors mirror the named error values of
`frame.go`.  `noFuel` is the artificial marker of fuel exhaustion for the
embedded `Conn.Read` loop. -/
inductive Err where
  | eof
  | badPreambule
  | badHeader
  | badMaskingKey
  | frameTooLarge
  | noFuel
deriving DecidableEq

instance {ε α : Type} [DecidableEq ε] [DecidableEq α] : DecidableEq (Except ε α) := fun x y =>
  match x, y with
  | .error a, .error b =>
    if h : a = b then .isTrue (congrArg Except.error h)
    else .isFalse (fun hc => h (Except.error.inj hc))
  | .ok a, .ok b =>
    if h : a = b then .isTrue (congrArg Except.ok h)
    else .isFalse (fun hc => h (Except.ok.inj hc))
  | .error _, .ok _ => .isFalse (fun hc => Except.noConfusion hc)
  | .ok _, .error _ => .isFalse (fun hc => Except.noConfusion hc)

/-- `preambule` from frame.go: fixed 4 bytes prefixing every frame. -/
def preambule : List Nat := [0x5A, 0xA5, 0x5A, 0xA5]

/-- Opcode constants from frame.go. -/
def ContinuationFrame : Nat := 0

def TextFrame : Nat := 1

def BinaryFrame : Nat := 2

def CloseFrame : Nat := 8

def UnknownFrame : Nat := 255

/-- `DefaultMaxPayloadBytes = 32 << 20` from frame.go. -/
def DefaultMaxPayloadBytes : Nat := 32 <<< 20

/-- `closeStatusNormal = 1000` from conn.go. -/
def closeStatusNormal : Nat := 1000

/-- `tcpFrameHeader` from frame.go.  `data` is the raw header bytes retained by
the reader factory (the Go field is a `*bytes.Buffer`; the writer never fills
it, the decoder fills it with every header byte after the preamble). -/
structure tcpFrameHeader where
  Fin : Bool
  Rsv0 : Bool
  Rsv1 : Bool
  Rsv2 : Bool
  OpCode : Nat
  Length : Nat
  MaskingKey : Option (List Nat)
  data : List Nat
deriving DecidableEq

/-- `tcpFrameReader` from frame.go.  `reader` in Go is
`io.LimitReader(buf, header.Length)` over the shared connection stream; it is
embedded as the count `remaining` of payload bytes not yet consumed, the
stream itself being threaded separately.  `pos` is the rotating mask
position. -/
structure tcpFrameReader where
  header : tcpFrameHeader
  pos : Nat
  length : Nat
  remaining : Nat
deriving DecidableEq

/-- The byte-rotating XOR loop shared by `tcpFrameReader.Read` and
`tcpFrameWriter.Write`: each byte is XORed with `key[pos % 4]` and `pos`
advances by one per byte. -/
def xorMaskGo (key : List Nat) (pos : Nat) : List Nat → List Nat
  | [] => []
  | b :: bs => (b ^^^ key.getD (pos % 4) 0) :: xorMaskGo key (pos + 1) bs

/-- Masking with an optional key: `none` leaves the bytes untouched (the Go
code only XORs when `MaskingKey != nil`). -/
def xorMask (key : Option (List Nat)) (pos : Nat) (bs : List Nat) : List Nat :=
  match key with
  | none => bs
  | some k => xorMaskGo k pos bs

/-- `bufio.Reader.ReadByte` over the embedded stream: `io.EOF` when empty. -/
def readByte (s : List Nat) : Except Err Nat × List Nat :=
  match s with
  | [] => (.error .eof, [])
  | b :: s' => (.ok b, s')

/-- Reading `n` consecutive bytes (the byte-at-a-time loops of
`NewFrameReader` for extended length fields and mask keys). -/
def readN : Nat → List Nat → Except Err (List Nat) × List Nat
  | 0, s => (.ok [], s)
  | n + 1, s =>
    match readByte s with
    | (.error e, s') => (.error e, s')
    | (.ok b, s') =>
      match readN n s' with
      | (.error e, s'') => (.error e, s'')
      | (.ok bs, s'') => (.ok (b :: bs), s'')

/-- The preamble check loop of `NewFrameReader`: reads one byte per expected
preamble byte and fails with `ErrBadPreambule` on the first mismatch. -/
def checkPreambule : List Nat → List Nat → Except Err Unit × List Nat
  | [], s => (.ok (), s)
  | p :: ps, s =>
    match readByte s with
    | (.error e, s') => (.error e, s')
    | (.ok b, s') => if b = p then checkPreambule ps s' else (.error .badPreambule, s')

/-- The value of the Go `int64` whose unsigned 64-bit pattern is `v`: the
decoder's length accumulator and the `int(...)` casts of conn.go are signed,
so patterns with the top bit set read as negative values. -/
def int64Of (v : Nat) : Int :=
  if v < 2 ^ 63 then (v : Int) else (v : Int) - 2 ^ 64

/-- `tcpFrameReaderFactory.NewFrameReader` from frame.go: decode the preamble,
the two header bytes, the variable-width length, and the optional masking key;
build the `tcpFrameReader` whose `length` is `len(header) + Length` (the
raw-header bytes collected after the preamble) and whose payload is a
length-`Length` limited view of the remaining stream.

`Length` stores the unsigned 64-bit pattern of the Go `int64` accumulator
(`Length = Length*256 + int64(b)`); it is below `2 ^ 64` because at most 8
bytes are folded.  A declared 8-byte length with the top bit set is negative
as `int64` (`int64Of`), and `io.LimitReader` with a negative count yields
immediate end-of-file, so such a frame exposes an empty payload view
(`remaining = 0`). -/
def NewFrameReader (s : List Nat) : Except Err tcpFrameReader × List Nat :=
  match checkPreambule preambule s with
  | (.error e, s') => (.error e, s')
  | (.ok _, s1) =>
    match readByte s1 with
    | (.error e, s') => (.error e, s')
    | (.ok b1, s2) =>
      match readByte s2 with
      | (.error e, s') => (.error e, s')
      | (.ok b2, s3) =>
        let mask := (b2 &&& 0x80) != 0
        let b := b2 &&& 0x7f
        let lengthFields : Nat := if b ≤ 125 then 0 else if b = 126 then 2 else 8
        match readN lengthFields s3 with
        | (.error e, s') => (.error e, s')
        | (.ok ext, s4) =>
          let length := ext.foldl (fun acc x => acc * 256 + x) (if b ≤ 125 then b else 0)
          match (if mask then readN 4 s4 else (.ok [], s4)) with
          | (.error e, s') => (.error e, s')
          | (.ok keyBytes, s5) =>
            let data := b1 :: b2 :: (ext ++ keyBytes)
            let hdr : tcpFrameHeader :=
              { Fin := (b1 &&& 0x80) != 0
                Rsv0 := ((b1 >>> 6) &&& 1) != 0
                Rsv1 := ((b1 >>> 5) &&& 1) != 0
                Rsv2 := ((b1 >>> 4) &&& 1) != 0
                OpCode := b1 &&& 0x0f
                Length := length
                MaskingKey := if mask then some keyBytes else none
                data := data }
            (.ok { header := hdr, pos := 0, length := data.length + length,
                   remaining := if length < 2 ^ 63 then length else 0 }, s5)

/-- `tcpFrameWriter.Write` from frame.go.  Given the constructed header, it
emits preamble, header bytes and (masked or plain) payload, and returns
`len(preambule) + len(header) + len(msg)` together with the flush outcome.
`flushErr` injects the result of `frame.writer.Flush()` (the model's sink is a
`bytes.Buffer`, whose writes cannot fail; an environment-chosen flush error is
the only fallible step).  The third component is the wire bytes produced. -/
def tcpFrameWriter.Write (hdr : tcpFrameHeader) (msg : List Nat) (flushErr : Option Err) :
    Nat × Option Err × List Nat :=
  let b1 := ((((if hdr.Fin then 0x80 else 0) |||
      (if hdr.Rsv0 then 64 else 0)) |||
      (if hdr.Rsv1 then 32 else 0)) |||
      (if hdr.Rsv2 then 16 else 0)) ||| hdr.OpCode
  let maskBit : Nat := if hdr.MaskingKey.isSome then 0x80 else 0x00
  let length := msg.length
  let b2 : Nat :=
    if length ≤ 125 then maskBit ||| length
    else if length < 65536 then maskBit ||| 126
    else maskBit ||| 127
  -- `binary.BigEndian.AppendUint16 / AppendUint64` on `uint16(length)` /
  -- `uint64(length)`: big-endian bytes, each `byte(v >> 8k) = v / 256^k % 256`.
  let ext : List Nat :=
    if length ≤ 125 then []
    else if length < 65536 then [length / 256 % 256, length % 256]
    else [length / 256 ^ 7 % 256, length / 256 ^ 6 % 256, length / 256 ^ 5 % 256,
          length / 256 ^ 4 % 256, length / 256 ^ 3 % 256, length / 256 ^ 2 % 256,
          length / 256 % 256, length % 256]
  let header := b1 :: b2 :: ext
  match hdr.MaskingKey with
  | some key =>
    if key.length ≠ 4 then (0, some .badMaskingKey, [])
    else
      let headerK := header ++ key
      let data := xorMaskGo key 0 msg
      (preambule.length + headerK.length + msg.length, flushErr, preambule ++ headerK ++ data)
  | none =>
    (preambule.length + header.length + msg.length, flushErr, preambule ++ header ++ msg)

/-- `tcpFrameWriterFactory.NewFrameWriter` from frame.go: a header with
`Fin = true`, zero reserved bits, the requested payload type, and the masking
key when the factory requires masking (`key` stands for the factory's
`needMaskingKey` switch together with the key produced by
`generateMaskingKey`). -/
def NewFrameWriter (payloadType : Nat) (key : Option (List Nat)) : tcpFrameHeader :=
  { Fin := true, Rsv0 := false, Rsv1 := false, Rsv2 := false,
    OpCode := payloadType, Length := 0, MaskingKey := key, data := [] }

/-- `tcpFrameHandler.HandleFrame` from frame.go, with the handler's one piece
of mutable state (`payloadType`) passed and returned explicitly.  A close
frame yields `io.EOF` and no frame; every other opcode yields a frame.  (The
`Conn` read paths check for a nil frame with nil error; `tcpFrameHandler`
never produces that combination, so the embedding has no such case.) -/
def HandleFrame (payloadType : Nat) (frame : tcpFrameReader) :
    Except Err (tcpFrameReader × Nat) :=
  if frame.header.OpCode = ContinuationFrame then
    .ok ({ frame with header := { frame.header with OpCode := payloadType } }, payloadType)
  else if frame.header.OpCode = TextFrame ∨ frame.header.OpCode = BinaryFrame then
    .ok (frame, frame.header.OpCode)
  else if frame.header.OpCode = CloseFrame then
    .error .eof
  else
    .ok (frame, payloadType)

/-- The zero value `&tcpFrameHandler{}` used by every constructor call site in
the repository: the Go zero value of the `payloadType byte` field is `0`. -/
def tcpFrameHandlerZero : Nat := 0

/-- `Conn` from conn.go.  `stream` is the connection's buffered byte stream:
in the repository's tests the read and write sides share one `bytes.Buffer`,
so `Write` appends to `stream` and the read path consumes it.  `frameReader`
is the in-progress inbound frame, `handlerPayloadType` the
`tcpFrameHandler` state. -/
structure Conn where
  stream : List Nat
  frameReader : Option tcpFrameReader
  handlerPayloadType : Nat
  PayloadType : Nat
  defaultCloseStatus : Nat
  MaxPayloadBytes : Nat
deriving DecidableEq

/-- `NewFrameConnection` from frame.go: fresh buffers, the zero-value handler,
`defaultCloseStatus = closeStatusNormal`; the `PayloadType` field of `Conn`
is left at its zero value `0`. -/
def NewFrameConnection (stream : List Nat) (maxPayloadBytes : Nat) : Conn :=
  { stream := stream, frameReader := none, handlerPayloadType := tcpFrameHandlerZero,
    PayloadType := 0, defaultCloseStatus := closeStatusNormal,
    MaxPayloadBytes := maxPayloadBytes }

/-- One call to `tcpFrameReader.Read` with a caller buffer of size `k`:
`io.LimitReader(stream, Length)` capped by the unread payload (`remaining`),
backed by a `bytes.Buffer` (returns `io.EOF` only when empty and asked for
data), followed by the rotating-XOR unmasking loop advancing `pos` once per
byte when a masking key is present.  Returns the bytes delivered, the updated
reader, the remaining stream, and the error, mirroring Go's `(n, err)`. -/
def frameReadStep (fr : tcpFrameReader) (stream : List Nat) (k : Nat) :
    List Nat × tcpFrameReader × List Nat × Option Err :=
  if fr.remaining = 0 then ([], fr, stream, some .eof)
  else
    let cap := min k fr.remaining
    if cap = 0 then ([], fr, stream, none)
    else if stream.isEmpty then ([], fr, stream, some .eof)
    else
      let n := min cap stream.length
      let out := xorMask fr.header.MaskingKey fr.pos (stream.take n)
      let fr' := { fr with
        pos := if fr.header.MaskingKey.isSome then fr.pos + n else fr.pos,
        remaining := fr.remaining - n }
      (out, fr', stream.drop n, none)

/-- The loop body of `Conn.Read` from conn.go, with explicit fuel: decode a
fresh frame when none is active, run it through the handler, read from the
active frame, and on `io.EOF` from the frame clear it and retry. -/
def connReadLoop : Nat → Conn → Nat → Except Err (List Nat) × Conn
  | 0, conn, _ => (.error .noFuel, conn)
  | fuel + 1, conn, k =>
    match conn.frameReader with
    | none =>
      match NewFrameReader conn.stream with
      | (.error e, s') => (.error e, { conn with stream := s' })
      | (.ok frame, s') =>
        match HandleFrame conn.handlerPayloadType frame with
        | .error e => (.error e, { conn with stream := s' })
        | .ok (frame', pt') =>
          connReadLoop fuel
            { conn with stream := s', frameReader := some frame', handlerPayloadType := pt' } k
    | some fr =>
      match frameReadStep fr conn.stream k with
      | (out, fr', s', none) => (.ok out, { conn with frameReader := some fr', stream := s' })
      | (_, _, _, some .eof) => connReadLoop fuel { conn with frameReader := none } k
      | (_, _, _, some e) => (.error e, conn)

/-- `Conn.Read` from conn.go.  Each decoded frame consumes at least six stream
bytes, so `stream.length + 2` fuel strictly exceeds the number of loop
iterations any call can make. -/
def Conn.Read (conn : Conn) (k : Nat) : Except Err (List Nat) × Conn :=
  connReadLoop (conn.stream.length + 2) conn k

/-- `Conn.ReadFrame` from conn.go.  Drain a leftover active frame
(`io.Copy(io.Discard, ...)`), decode and handle the next frame, apply the
`*tcpFrameReader` size ceiling (the concrete factory always produces that
type, so the type assertion in the source holds here), then `io.ReadAll` the
payload.  The ceiling comparison `maxPayloadBytes < int(r.header.Length)` is
between signed 64-bit integers, so a declared length whose top bit is set
reads as negative and skips the check.  The `frame == nil → continue` retry
of the source is unreachable with `tcpFrameHandler` (it never returns a nil
frame without error), so the loop body runs once. -/
def Conn.ReadFrame (conn : Conn) : Except Err (List Nat) × Conn :=
  let conn :=
    match conn.frameReader with
    | none => conn
    | some fr => { conn with stream := conn.stream.drop fr.remaining, frameReader := none }
  match NewFrameReader conn.stream with
  | (.error e, s') => (.error e, { conn with stream := s' })
  | (.ok frame, s') =>
    match HandleFrame conn.handlerPayloadType frame with
    | .error e => (.error e, { conn with stream := s' })
    | .ok (frame', pt') =>
      let conn := { conn with stream := s', handlerPayloadType := pt' }
      let maxPayloadBytes :=
        if conn.MaxPayloadBytes = 0 then DefaultMaxPayloadBytes else conn.MaxPayloadBytes
      if (maxPayloadBytes : Int) < int64Of frame'.header.Length then
        (.error .frameTooLarge, { conn with stream := conn.stream.drop frame'.remaining })
      else
        (.ok (xorMask frame'.header.MaskingKey frame'.pos (conn.stream.take frame'.remaining)),
         { conn with stream := conn.stream.drop frame'.remaining })

/-- `Conn.Write` from conn.go: build a writer for the connection's configured
payload type (with `key` the factory's masking choice) and write the whole
message as one frame, appending the wire bytes to the shared stream and
returning the writer's `(n, err)` unmodified. -/
def Conn.Write (conn : Conn) (key : Option (List Nat)) (msg : List Nat)
    (flushErr : Option Err) : (Nat × Option Err) × Conn :=
  let w := NewFrameWriter conn.PayloadType key
  let r := tcpFrameWriter.Write w msg flushErr
  ((r.1, r.2.1), { conn with stream := conn.stream ++ r.2.2 })

/-- `binary.BigEndian.AppendUint16([]byte{}, uint16(status))` from
`tcpFrameHandler.WriteClose`. -/
def be16 (status : Nat) : List Nat := [status % 65536 / 256, status % 256]

/-- `tcpFrameHandler.WriteClose` from frame.go: write one close frame whose
payload is the 2-byte big-endian status code; only the write error is
returned. -/
def Conn.WriteClose (conn : Conn) (key : Option (List Nat)) (status : Nat)
    (flushErr : Option Err) : Option Err × Conn :=
  let hdr := NewFrameWriter CloseFrame key
  let r := tcpFrameWriter.Write hdr (be16 status) flushErr
  (r.2.1, { conn with stream := conn.stream ++ r.2.2 })

/-- `Conn.Close` from conn.go: send a close frame with the configured default
status, then close `rwc` unconditionally (`rwcCloseErr` injects that call's
outcome; the returned `Bool` records that `rwc.Close()` was invoked).  The
close-frame write error takes precedence over the stream-close error. -/
def Conn.Close (conn : Conn) (key : Option (List Nat)) (flushErr rwcCloseErr : Option Err) :
    Option Err × Conn × Bool :=
  let r := Conn.WriteClose conn key conn.defaultCloseStatus flushErr
  match r.1 with
  | some e => (some e, r.2, true)
  | none => (rwcCloseErr, r.2, true)

/-- Successive streaming reads: call `Conn.Read` once per requested chunk
size, concatenating the delivered bytes (the reading loops of the
repository's tests). -/
def readChunks : List Nat → Conn → Except Err (List Nat) × Conn
  | [], conn => (.ok [], conn)
  | c :: cs, conn =>
    match Conn.Read conn c with
    | (.ok bs, conn') =>
      match readChunks cs conn' with
      | (.ok rest, conn'') => (.ok (bs ++ rest), conn'')
      | (.error e, conn'') => (.error e, conn'')
    | (.error e, conn') => (.error e, conn')

/-- A masking key acceptable to the writer: absent, or of length 4 (the shape
`generateMaskingKey` always produces). -/
def validKey : Option (List Nat) → Prop
  | none => True
  | some ks => ks.length = 4

instance (k : Option (List Nat)) : Decidable (validKey k) :=
  match k with
  | none => isTrue trivial
  | some ks => (inferInstance : Decidable (ks.length = 4))

/-- Extended-length bytes produced by `tcpFrameWriter.Write` for a payload of
`L` bytes. -/
def encExt (L : Nat) : List Nat :=
  if L ≤ 125 then []
  else if L < 65536 then [L / 256 % 256, L % 256]
  else [L / 256 ^ 7 % 256, L / 256 ^ 6 % 256, L / 256 ^ 5 % 256, L / 256 ^ 4 % 256,
        L / 256 ^ 3 % 256, L / 256 ^ 2 % 256, L / 256 % 256, L % 256]

/-- Second header byte (mask bit and length indicator) produced by the
writer. -/
def encB2 (maskBit L : Nat) : Nat :=
  if L ≤ 125 then maskBit ||| L
  else if L < 65536 then maskBit ||| 126
  else maskBit ||| 127

/-- The raw header bytes (after the preamble) that `tcpFrameWriter.Write`
emits for opcode `op`, payload length `L` and masking key `key`. -/
def encData (key : Option (List Nat)) (op L : Nat) : List Nat :=
  (128 ||| op) :: encB2 (if key.isSome then 128 else 0) L :: (encExt L ++ key.getD [])

/-- Opcode reported after `HandleFrame`: a continuation frame inherits the
held payload type, every other frame keeps its own opcode. -/
def handledOp (pt op : Nat) : Nat := if op = ContinuationFrame then pt else op

/-- Handler state after `HandleFrame`: text/binary opcodes are recorded,
everything else leaves the held payload type unchanged. -/
def handledPt (pt op : Nat) : Nat :=
  if op = TextFrame ∨ op = BinaryFrame then op else pt

/-- The connection state in the middle of draining one frame whose full
payload is `P`, with `j` bytes already delivered: the stream still holds the
(possibly masked) tail of `P`, and the active reader's mask position and
remaining-byte count reflect `j`. -/
def midConn (base : Conn) (fr0 : tcpFrameReader) (P : List Nat) (j : Nat) : Conn :=
  { base with
    stream := (xorMask fr0.header.MaskingKey 0 P).drop j
    frameReader := some { fr0 with
      pos := if fr0.header.MaskingKey.isSome then j else 0
      remaining := P.length - j } }

/-- The `tcpFrameReader` that `NewFrameReader` builds for a frame written
with opcode `op`, masking key `key` and a payload of `L` bytes. -/
def decFrame (key : Option (List Nat)) (op L : Nat) : tcpFrameReader :=
  { header := { Fin := true, Rsv0 := false, Rsv1 := false, Rsv2 := false,
                OpCode := op, Length := L, MaskingKey := key, data := encData key op L },
    pos := 0, length := (encData key op L).length + L, remaining := L }

/-- The frame returned by `HandleFrame` for a non-close frame. -/
def handledFrame (pt : Nat) (fr : tcpFrameReader) : tcpFrameReader :=
  { fr with header := { fr.header with OpCode := handledOp pt fr.header.OpCode } }

def c2conn : Conn :=
  (Conn.Write { NewFrameConnection [] 10 with PayloadType := 2 } none
    (List.replicate 12 7) none).2

def c2frame : tcpFrameReader :=
  { header := { Fin := true, Rsv0 := false, Rsv1 := false, Rsv2 := false, OpCode := 2,
                Length := 12, MaskingKey := none, data := [130, 12] },
    pos := 0, length := 14, remaining := 12 }

def closeConn : Conn := NewFrameConnection [90, 165, 90, 165, 136, 2, 3, 232] 0

def closeFrameW : tcpFrameReader :=
  { header := { Fin := true, Rsv0 := false, Rsv1 := false, Rsv2 := false, OpCode := 8,
                Length := 2, MaskingKey := none, data := [136, 2] },
    pos := 0, length := 4, remaining := 2 }

def textFrameW : tcpFrameReader :=
  { header := { Fin := true, Rsv0 := false, Rsv1 := false, Rsv2 := false, OpCode := 1,
                Length := 0, MaskingKey := none, data := [129, 0] },
    pos := 0, length := 2, remaining := 0 }

def contFrameW : tcpFrameReader :=
  { header := { Fin := true, Rsv0 := false, Rsv1 := false, Rsv2 := false, OpCode := 0,
                Length := 0, MaskingKey := none, data := [128, 0] },
    pos := 0, length := 2, remaining := 0 }

def c7frame : tcpFrameReader :=
  { header := { Fin := true, Rsv0 := false, Rsv1 := false, Rsv2 := false, OpCode := 1,
                Length := 1, MaskingKey := none, data := [129, 1] },
    pos := 0, length := 3, remaining := 1 }

/-- A frame whose 8-byte declared length is `2 ^ 63`: fin+binary first byte,
length indicator 127, extended length bytes `80 00 00 00 00 00 00 00`. -/
def c2advWire : List Nat :=
  [0x5A, 0xA5, 0x5A, 0xA5, 0x82, 127, 128, 0, 0, 0, 0, 0, 0, 0]

def c2advConn : Conn := NewFrameConnection c2advWire 10

def contFrameC9 : tcpFrameReader :=
  { header := { Fin := true, Rsv0 := false, Rsv1 := false, Rsv2 := false, OpCode := 0,
                Length := 0, MaskingKey := none, data := [128, 0] },
    pos := 0, length := 2, remaining := 0 }

theorem xorMaskGo_length (key : List Nat) (pos : Nat) (bs : List Nat) :
    (xorMaskGo key pos bs).length = bs.length := by
  induction bs generalizing pos with
  | nil => rfl
  | cons b bs ih => simp [xorMaskGo, ih]

theorem xorMask_length (key : Option (List Nat)) (pos : Nat) (bs : List Nat) :
    (xorMask key pos bs).length = bs.length := by
  cases key with
  | none => rfl
  | some k => exact xorMaskGo_length k pos bs

theorem xorMaskGo_take (key : List Nat) (pos n : Nat) (bs : List Nat) :
    (xorMaskGo key pos bs).take n = xorMaskGo key pos (bs.take n) := by
  induction bs generalizing pos n with
  | nil => simp [xorMaskGo]
  | cons b bs ih =>
    cases n with
    | zero => simp [xorMaskGo]
    | succ m => simp [xorMaskGo, ih]

theorem xorMaskGo_drop (key : List Nat) (pos n : Nat) (bs : List Nat) :
    (xorMaskGo key pos bs).drop n = xorMaskGo key (pos + n) (bs.drop n) := by
  induction bs generalizing pos n with
  | nil => simp [xorMaskGo]
  | cons b bs ih =>
    cases n with
    | zero => simp [xorMaskGo]
    | succ m =>
      simp only [xorMaskGo, List.drop_succ_cons, ih]
      have : pos + 1 + m = pos + (m + 1) := by omega
      rw [this]

theorem xorMaskGo_involution (key : List Nat) (pos : Nat) (bs : List Nat) :
    xorMaskGo key pos (xorMaskGo key pos bs) = bs := by
  induction bs generalizing pos with
  | nil => rfl
  | cons b bs ih => simp [xorMaskGo, Nat.xor_cancel_right, ih]

theorem readN_exact (xs s : List Nat) : readN xs.length (xs ++ s) = (.ok xs, s) := by
  induction xs with
  | nil => rfl
  | cons b xs ih => simp [readN, readByte, ih]

theorem readN_ok (n : Nat) (s bs s' : List Nat) (h : readN n s = (.ok bs, s')) :
    bs.length = n ∧ s.length = n + s'.length := by
  induction n generalizing s bs s' with
  | zero =>
    simp only [readN, Prod.mk.injEq, Except.ok.injEq] at h
    obtain ⟨rfl, rfl⟩ := h
    simp
  | succ m ih =>
    match s with
    | [] => simp [readN, readByte] at h
    | b :: s0 =>
      simp only [readN, readByte] at h
      rcases hr : readN m s0 with ⟨r, s1⟩
      rw [hr] at h
      cases r with
      | error e => simp at h
      | ok bs0 =>
        simp only [Prod.mk.injEq, Except.ok.injEq] at h
        obtain ⟨rfl, rfl⟩ := h
        obtain ⟨h1, h2⟩ := ih s0 bs0 _ hr
        simp only [List.length_cons, h1]
        exact ⟨trivial, by omega⟩

theorem checkPreambule_ok (ps : List Nat) (u : Unit) :
    ∀ s s' : List Nat, checkPreambule ps s = (.ok u, s') → s.length = ps.length + s'.length := by
  induction ps with
  | nil =>
    intro s s' h
    simp only [checkPreambule, Prod.mk.injEq] at h
    obtain ⟨_, rfl⟩ := h
    simp
  | cons p ps ih =>
    intro s s' h
    match s with
    | [] => simp [checkPreambule, readByte] at h
    | b :: s0 =>
      simp only [checkPreambule, readByte] at h
      by_cases hb : b = p
      · rw [if_pos hb] at h
        have := ih s0 s' h
        simp only [List.length_cons, this]
        omega
      · rw [if_neg hb] at h
        simp at h

theorem checkPreambule_exact (s : List Nat) :
    checkPreambule preambule (preambule ++ s) = (.ok (), s) := by
  simp [preambule, checkPreambule, readByte]

theorem or128_and15 : ∀ op : Nat, op < 16 → (128 ||| op) &&& 15 = op := by decide

theorem or128_fin : ∀ op : Nat, op < 16 → ((128 ||| op) &&& 128 != 0) = true := by decide

theorem or128_rsv6 : ∀ op : Nat, op < 16 → (((128 ||| op) >>> 6) &&& 1 != 0) = false := by
  decide

theorem or128_rsv5 : ∀ op : Nat, op < 16 → (((128 ||| op) >>> 5) &&& 1 != 0) = false := by
  decide

theorem or128_rsv4 : ∀ op : Nat, op < 16 → (((128 ||| op) >>> 4) &&& 1 != 0) = false := by
  decide

theorem and127_small : ∀ L : Nat, L < 126 → L &&& 127 = L := by decide

theorem and128_small : ∀ L : Nat, L < 126 → (L &&& 128 != 0) = false := by decide

theorem or128_and127_small : ∀ L : Nat, L < 126 → (128 ||| L) &&& 127 = L := by decide

theorem or128_and128_small : ∀ L : Nat, L < 126 → ((128 ||| L) &&& 128 != 0) = true := by
  decide

theorem write_eq (op : Nat) (key : Option (List Nat)) (msg : List Nat) (ferr : Option Err)
    (hkey : validKey key) :
    tcpFrameWriter.Write (NewFrameWriter op key) msg ferr
      = (4 + (encData key op msg.length).length + msg.length, ferr,
         preambule ++ encData key op msg.length ++ xorMask key 0 msg) := by
  cases key with
  | none =>
    simp only [tcpFrameWriter.Write, NewFrameWriter, encData, encB2, encExt, xorMask,
      Option.isSome_none, Option.getD_none, Bool.false_eq_true, if_false, Nat.or_zero,
      List.append_nil, preambule]
    split_ifs <;>
      simp [Prod.mk.injEq, List.length_cons, List.length_append, List.cons_append]
  | some ks =>
    have hk : ks.length = 4 := hkey
    simp only [tcpFrameWriter.Write, NewFrameWriter, encData, encB2, encExt, xorMask,
      Option.isSome_some, Option.getD_some, if_true, Bool.false_eq_true, if_false,
      Nat.or_zero, preambule, hk]
    split_ifs <;>
      simp [Prod.mk.injEq, List.length_cons, List.length_append, List.cons_append, hk] <;>
        omega

theorem readN2 (a b : Nat) (s : List Nat) : readN 2 (a :: b :: s) = (.ok [a, b], s) := rfl

theorem readN8 (a1 a2 a3 a4 a5 a6 a7 a8 : Nat) (s : List Nat) :
    readN 8 (a1 :: a2 :: a3 :: a4 :: a5 :: a6 :: a7 :: a8 :: s)
      = (.ok [a1, a2, a3, a4, a5, a6, a7, a8], s) := rfl

theorem readN_key (ks s : List Nat) (hk : ks.length = 4) :
    readN 4 (ks ++ s) = (.ok ks, s) := by
  have := readN_exact ks s
  rw [hk] at this
  exact this

theorem foldl2 (a b : Nat) :
    List.foldl (fun acc x => acc * 256 + x) 0 [a, b] = a * 256 + b := by
  simp [List.foldl]

theorem foldl8 (a1 a2 a3 a4 a5 a6 a7 a8 : Nat) :
    List.foldl (fun acc x => acc * 256 + x) 0 [a1, a2, a3, a4, a5, a6, a7, a8]
      = ((((((a1 * 256 + a2) * 256 + a3) * 256 + a4) * 256 + a5) * 256 + a6) * 256 + a7)
          * 256 + a8 := by
  simp [List.foldl]

theorem fold16 (L : Nat) (h1 : ¬ L ≤ 125) (h2 : L < 65536) :
    L / 256 % 256 * 256 + L % 256 = L := by omega

theorem fold64 (L : Nat) (h2 : ¬ L < 65536) (h3 : L < 2 ^ 63) :
    ((((((L / 72057594037927936 % 256 * 256 + L / 281474976710656 % 256) * 256
        + L / 1099511627776 % 256) * 256 + L / 4294967296 % 256) * 256
        + L / 16777216 % 256) * 256 + L / 65536 % 256) * 256 + L / 256 % 256) * 256
        + L % 256 = L := by
  have p63 : (2 : Nat) ^ 63 = 9223372036854775808 := by norm_num
  rw [p63] at h3
  omega

theorem readN0 (s : List Nat) : readN 0 s = (.ok [], s) := rfl

theorem or128_rsv6m : ∀ op : Nat, op < 16 → (128 ||| op) >>> 6 % 2 = 0 := by decide

theorem or128_rsv5m : ∀ op : Nat, op < 16 → (128 ||| op) >>> 5 % 2 = 0 := by decide

theorem or128_rsv4m : ∀ op : Nat, op < 16 → (128 ||| op) >>> 4 % 2 = 0 := by decide

theorem or128_rsv6b : ∀ op : Nat, op < 16 → ((128 ||| op) >>> 6 % 2 == 1) = false := by
  decide

theorem or128_rsv5b : ∀ op : Nat, op < 16 → ((128 ||| op) >>> 5 % 2 == 1) = false := by
  decide

theorem or128_rsv4b : ∀ op : Nat, op < 16 → ((128 ||| op) >>> 4 % 2 == 1) = false := by
  decide

theorem decode_enc (op : Nat) (key : Option (List Nat)) (msg rest : List Nat)
    (hop : op < 16) (hkey : validKey key) (hlen : msg.length < 2 ^ 63) :
    NewFrameReader (preambule ++ encData key op msg.length ++ (xorMask key 0 msg ++ rest))
      = (.ok { header := { Fin := true, Rsv0 := false, Rsv1 := false, Rsv2 := false,
                           OpCode := op, Length := msg.length, MaskingKey := key,
                           data := encData key op msg.length },
               pos := 0,
               length := (encData key op msg.length).length + msg.length,
               remaining := msg.length },
         xorMask key 0 msg ++ rest) := by
  have f1 := or128_fin op hop
  have f2 := or128_rsv6 op hop
  have f3 := or128_rsv5 op hop
  have f4 := or128_rsv4 op hop
  have f5 := or128_and15 op hop
  have f6 := or128_rsv6m op hop
  have f7 := or128_rsv5m op hop
  have f8 := or128_rsv4m op hop
  have f9 := or128_rsv6b op hop
  have f10 := or128_rsv5b op hop
  have f11 := or128_rsv4b op hop
  have e126a : (126 : Nat) &&& 127 = 126 := rfl
  have e126b : (126 : Nat) &&& 128 = 0 := rfl
  have e127a : (127 : Nat) &&& 127 = 127 := rfl
  have e127b : (127 : Nat) &&& 128 = 0 := rfl
  have e254a : (254 : Nat) &&& 127 = 126 := rfl
  have e254b : (254 : Nat) &&& 128 = 128 := rfl
  have e255a : (255 : Nat) &&& 127 = 127 := rfl
  have e255b : (255 : Nat) &&& 128 = 128 := rfl
  have m126 : (128 : Nat) ||| 126 = 254 := rfl
  have m127 : (128 : Nat) ||| 127 = 255 := rfl
  have hlenL : msg.length < 9223372036854775808 := lt_of_lt_of_le hlen (by norm_num)
  rcases key with _ | ks
  · by_cases h1 : msg.length ≤ 125
    · have g1 := and128_small msg.length (by omega)
      have g2 := and127_small msg.length (by omega)
      simp [NewFrameReader, List.append_assoc, checkPreambule_exact, encData, encB2, encExt,
        readByte, readN, List.cons_append, List.nil_append, Nat.zero_or, f1, f2, f3, f4, f5,
        f6, f7, f8, f9, f10, f11, g1, g2, h1, xorMask, hlen] <;> omega
    · by_cases h2 : msg.length < 65536
      · have hf := fold16 msg.length h1 h2
        simp [NewFrameReader, List.append_assoc, checkPreambule_exact, encData, encB2, encExt,
          readByte, List.cons_append, List.nil_append, Nat.zero_or, f1, f2, f3, f4, f5,
          f6, f7, f8, f9, f10, f11, h1, h2, e126a, e126b, readN2, foldl2, hf, xorMask, hlen] <;> omega
      · have hf := fold64 msg.length h2 hlen
        simp [NewFrameReader, List.append_assoc, checkPreambule_exact, encData, encB2, encExt,
          readByte, List.cons_append, List.nil_append, Nat.zero_or, f1, f2, f3, f4, f5,
          f6, f7, f8, f9, f10, f11, h1, h2, e127a, e127b, readN8, foldl8, hf, xorMask, hlen] <;> omega
  · have hk : ks.length = 4 := hkey
    have hread := readN_key ks (xorMaskGo ks 0 msg ++ rest) hk
    by_cases h1 : msg.length ≤ 125
    · have g3 := or128_and128_small msg.length (by omega)
      have g4 := or128_and127_small msg.length (by omega)
      simp [NewFrameReader, List.append_assoc, checkPreambule_exact, encData, encB2, encExt,
        readByte, readN0, List.cons_append, List.nil_append, f1, f2, f3, f4, f5,
        f6, f7, f8, f9, f10, f11, g3, g4, h1, hread, xorMask, hlen] <;> omega
    · by_cases h2 : msg.length < 65536
      · have hf := fold16 msg.length h1 h2
        simp [NewFrameReader, List.append_assoc, checkPreambule_exact, encData, encB2, encExt,
          readByte, List.cons_append, List.nil_append, f1, f2, f3, f4, f5,
          f6, f7, f8, f9, f10, f11, h1, h2, m126, e254a, e254b, readN2, foldl2, hf, hread,
          xorMask, hlen] <;> omega
      · have hf := fold64 msg.length h2 hlen
        simp [NewFrameReader, List.append_assoc, checkPreambule_exact, encData, encB2, encExt,
          readByte, List.cons_append, List.nil_append, f1, f2, f3, f4, f5,
          f6, f7, f8, f9, f10, f11, h1, h2, m127, e255a, e255b, readN8, foldl8, hf, hread,
          xorMask, hlen] <;> omega

theorem readByte_ok (s : List Nat) (b : Nat) (s' : List Nat)
    (h : readByte s = (.ok b, s')) : s.length = 1 + s'.length := by
  cases s with
  | nil => simp [readByte] at h
  | cons x s0 =>
    simp only [readByte, Prod.mk.injEq, Except.ok.injEq] at h
    obtain ⟨rfl, rfl⟩ := h
    simp [Nat.add_comm]

/-- What `NewFrameReader` records on success: the reported total frame length
is the raw header bytes collected after the preamble plus the payload length,
and the bytes consumed from the stream are the 4 preamble bytes plus those
raw header bytes. -/
theorem NewFrameReader_length_spec (s : List Nat) (fr : tcpFrameReader) (s' : List Nat)
    (h : NewFrameReader s = (.ok fr, s')) :
    fr.length = fr.header.data.length + fr.header.Length
    ∧ s.length = (4 + fr.header.data.length) + s'.length := by
  simp only [NewFrameReader] at h
  split at h
  · simp at h
  · rename_i u s1 hc
    split at h
    · simp at h
    · rename_i b1 s2 hb1
      split at h
      · simp at h
      · rename_i b2 s3 hb2
        split at h
        · simp at h
        · rename_i ext s4 hext
          split at h
          · simp at h
          · rename_i keyBytes s5 hkb
            have hlen1 := checkPreambule_ok preambule u s s1 hc
            have hlen2 := readByte_ok s1 b1 s2 hb1
            have hlen3 := readByte_ok s2 b2 s3 hb2
            have hlen4 := readN_ok _ s3 ext s4 hext
            have hlen5 : s4.length = keyBytes.length + s5.length := by
              by_cases hm : ((b2 &&& 128 != 0) : Bool) = true
              · rw [if_pos hm] at hkb
                have := readN_ok 4 s4 keyBytes s5 hkb
                omega
              · rw [if_neg hm] at hkb
                simp only [Prod.mk.injEq, Except.ok.injEq] at hkb
                obtain ⟨rfl, rfl⟩ := hkb
                simp
            simp only [Prod.mk.injEq, Except.ok.injEq] at h
            obtain ⟨rfl, rfl⟩ := h
            simp only [List.length_cons, List.length_append]
            constructor
            · trivial
            · simp only [preambule, List.length_cons, List.length_nil] at hlen1
              omega

theorem HandleFrame_not_close (pt : Nat) (fr : tcpFrameReader)
    (h : fr.header.OpCode ≠ CloseFrame) :
    HandleFrame pt fr
      = .ok ({ fr with header := { fr.header with OpCode := handledOp pt fr.header.OpCode } },
             handledPt pt fr.header.OpCode) := by
  unfold HandleFrame handledOp handledPt
  by_cases h0 : fr.header.OpCode = ContinuationFrame
  · simp [h0, ContinuationFrame, TextFrame, BinaryFrame]
  · by_cases h12 : fr.header.OpCode = TextFrame ∨ fr.header.OpCode = BinaryFrame
    · simp [h0, h12]
    · simp [h0, h12, h]

theorem frameReadStep_mid (fr0 : tcpFrameReader) (P : List Nat) (j k : Nat)
    (hj : j < P.length) :
    frameReadStep
        { fr0 with pos := if fr0.header.MaskingKey.isSome then j else 0,
                   remaining := P.length - j }
        ((xorMask fr0.header.MaskingKey 0 P).drop j) k
      = ((P.drop j).take (min k (P.length - j)),
         { fr0 with
            pos := if fr0.header.MaskingKey.isSome then j + min k (P.length - j) else 0,
            remaining := P.length - (j + min k (P.length - j)) },
         (xorMask fr0.header.MaskingKey 0 P).drop (j + min k (P.length - j)),
         none) := by
  have hlen : ((xorMask fr0.header.MaskingKey 0 P).drop j).length = P.length - j := by
    simp [List.length_drop, xorMask_length]
  have hrem : P.length - j ≠ 0 := by omega
  by_cases hcap : min k (P.length - j) = 0
  · have hk0 : k = 0 := by omega
    subst hk0
    simp only [frameReadStep, hcap, Nat.min_zero, Nat.zero_min, if_pos rfl, if_neg hrem,
      Nat.add_zero, ite_self]
    simp [Nat.sub_add_eq]
  · simp only [frameReadStep, if_neg hrem]
    rw [if_neg hcap]
    have hne : ((xorMask fr0.header.MaskingKey 0 P).drop j).isEmpty = false := by
      rw [List.isEmpty_eq_false]
      intro hnil
      rw [hnil] at hlen
      simp at hlen
      omega
    rw [hne]
    simp only [Bool.false_eq_true, if_false]
    have hminle : min k (P.length - j) ≤ P.length - j := Nat.min_le_right _ _
    have hn : min (min k (P.length - j)) ((xorMask fr0.header.MaskingKey 0 P).drop j).length
        = min k (P.length - j) := by
      rw [hlen]
      omega
    rw [hn]
    rcases hkm : fr0.header.MaskingKey with _ | ks
    · simp only [xorMask, hkm, Option.isSome_none, Bool.false_eq_true, if_false,
        Prod.mk.injEq]
      simp [Nat.sub_add_eq, List.drop_drop]
    · have hdrop : (xorMaskGo ks 0 P).drop j = xorMaskGo ks j (P.drop j) := by
        have := xorMaskGo_drop ks 0 j P
        simpa using this
      have htake : ((xorMaskGo ks 0 P).drop j).take (min k (P.length - j))
          = xorMaskGo ks j ((P.drop j).take (min k (P.length - j))) := by
        rw [hdrop, xorMaskGo_take]
      simp only [xorMask, hkm, Option.isSome_some, if_true, Prod.mk.injEq]
      simp [htake, xorMaskGo_involution, Nat.sub_add_eq, List.drop_drop]

theorem connReadLoop_mid (fuel : Nat) (base : Conn) (fr0 : tcpFrameReader) (P : List Nat)
    (j k : Nat) (hj : j < P.length) :
    connReadLoop (fuel + 1) (midConn base fr0 P j) k
      = (.ok ((P.drop j).take (min k (P.length - j))),
         midConn base fr0 P (j + min k (P.length - j))) := by
  have hstep := frameReadStep_mid fr0 P j k hj
  dsimp only [connReadLoop, midConn]
  rw [hstep]

theorem connRead_mid (base : Conn) (fr0 : tcpFrameReader) (P : List Nat) (j k : Nat)
    (hj : j < P.length) :
    Conn.Read (midConn base fr0 P j) k
      = (.ok ((P.drop j).take (min k (P.length - j))),
         midConn base fr0 P (j + min k (P.length - j))) :=
  connReadLoop_mid ((midConn base fr0 P j).stream.length + 1) base fr0 P j k hj

theorem HandleFrame_not_close_hf (pt : Nat) (fr : tcpFrameReader)
    (h : fr.header.OpCode ≠ CloseFrame) :
    HandleFrame pt fr = .ok (handledFrame pt fr, handledPt pt fr.header.OpCode) :=
  HandleFrame_not_close pt fr h

theorem decode_enc_frame (op : Nat) (key : Option (List Nat)) (msg : List Nat)
    (hop : op < 16) (hkey : validKey key) (hlen : msg.length < 2 ^ 63) :
    NewFrameReader (preambule ++ encData key op msg.length ++ xorMask key 0 msg)
      = (.ok (decFrame key op msg.length), xorMask key 0 msg) := by
  have := decode_enc op key msg [] hop hkey hlen
  rw [List.append_nil] at this
  exact this

theorem connRead_fresh (base : Conn) (key : Option (List Nat)) (op : Nat) (P : List Nat)
    (k : Nat) (hkey : validKey key) (hop : op < 16) (hop8 : op ≠ CloseFrame)
    (hP : P.length < 2 ^ 63) (hfr : base.frameReader = none) (hpos : 0 < P.length)
    (hstream : base.stream = preambule ++ encData key op P.length ++ xorMask key 0 P) :
    Conn.Read base k
      = (.ok (P.take (min k P.length)),
         midConn { base with handlerPayloadType := handledPt base.handlerPayloadType op }
           (handledFrame base.handlerPayloadType (decFrame key op P.length)) P
           (min k P.length)) := by
  show connReadLoop (base.stream.length + 1 + 1) base k = _
  dsimp only [connReadLoop]
  rw [hfr]
  dsimp only []
  rw [hstream, decode_enc_frame op key P hop hkey hP]
  dsimp only []
  rw [HandleFrame_not_close_hf base.handlerPayloadType (decFrame key op P.length) hop8]
  dsimp only []
  have hstep := frameReadStep_mid
      (handledFrame base.handlerPayloadType (decFrame key op P.length)) P 0 k hpos
  simp only [Nat.sub_zero, List.drop_zero, Nat.zero_add, ite_self, handledFrame,
    decFrame] at hstep ⊢
  rw [hstep]
  dsimp only []
  simp [midConn, handledFrame, decFrame]

theorem take_add_split {α : Type} (l : List α) (m n : Nat) :
    l.take (m + n) = l.take m ++ (l.drop m).take n := by
  induction l generalizing m with
  | nil => simp
  | cons a l ih =>
    cases m with
    | zero => simp
    | succ m0 =>
      have hm : m0 + 1 + n = (m0 + n) + 1 := by omega
      rw [hm]
      simp [List.take_succ_cons, List.drop_succ_cons, ih]

theorem readChunks_mid (base : Conn) (fr0 : tcpFrameReader) (P : List Nat) :
    ∀ (cs : List Nat) (j : Nat), j ≤ P.length →
      (∀ i, i < cs.length → j + (cs.take i).sum < P.length) →
      readChunks cs (midConn base fr0 P j)
        = (.ok ((P.drop j).take cs.sum), midConn base fr0 P (min (j + cs.sum) P.length)) := by
  intro cs
  induction cs with
  | nil =>
    intro j hj H
    simp only [readChunks, List.sum_nil, List.take_zero, Nat.add_zero]
    rw [Nat.min_eq_left hj]
  | cons c cs ih =>
    intro j hj H
    have hjlt : j < P.length := by
      have := H 0 (by simp)
      simpa using this
    have hminc : min c (P.length - j) ≤ c := Nat.min_le_left _ _
    have hminr : min c (P.length - j) ≤ P.length - j := Nat.min_le_right _ _
    simp only [readChunks]
    rw [connRead_mid base fr0 P j c hjlt]
    dsimp only []
    have hj' : j + min c (P.length - j) ≤ P.length := by omega
    have H' : ∀ i, i < cs.length →
        (j + min c (P.length - j)) + (cs.take i).sum < P.length := by
      intro i hi
      have := H (i + 1) (by simpa using hi)
      simp only [List.take_succ_cons, List.sum_cons] at this
      omega
    rw [ih (j + min c (P.length - j)) hj' H']
    dsimp only []
    have hA : (P.drop j).take (min c (P.length - j))
        ++ (P.drop (j + min c (P.length - j))).take cs.sum
        = (P.drop j).take (c + cs.sum) := by
      by_cases hc : c ≤ P.length - j
      · have hn : min c (P.length - j) = c := Nat.min_eq_left hc
        rw [hn, take_add_split (P.drop j) c cs.sum, List.drop_drop]
      · have hn : min c (P.length - j) = P.length - j := by omega
        rw [hn]
        have hlen1 : (P.drop j).length = P.length - j := by simp
        have ht1 : (P.drop j).take (P.length - j) = P.drop j := by
          rw [← hlen1, List.take_length]
        have ht2 : P.drop (j + (P.length - j)) = [] := by
          have : P.length ≤ j + (P.length - j) := by omega
          exact List.drop_eq_nil_of_le this
        have ht3 : (P.drop j).take (c + cs.sum) = P.drop j := by
          apply List.take_of_length_le
          rw [hlen1]
          omega
        rw [ht1, ht2, ht3]
        simp
    have hB : min (j + min c (P.length - j) + cs.sum) P.length
        = min (j + (c + cs.sum)) P.length := by
      by_cases hc : c ≤ P.length - j
      · rw [Nat.min_eq_left hc]
        omega
      · have hn : min c (P.length - j) = P.length - j := by omega
        rw [hn]
        omega
    rw [hB]
    simp only [List.sum_cons, Prod.mk.injEq, Except.ok.injEq]
    exact ⟨hA, trivial⟩

/-- C1: writing any payload (masked or unmasked) and reading it back through
the connection's streaming `Read`, across arbitrary positive chunk sizes that
cover the payload, yields exactly the payload bytes in order. -/
theorem c1_write_read_roundtrip (P : List Nat) (key : Option (List Nat)) (op : Nat)
    (cs : List Nat) (hkey : validKey key) (hop : op < 16) (hop8 : op ≠ CloseFrame)
    (hP : P.length < 2 ^ 63)
    (hcs : ∀ i, i < cs.length → (cs.take i).sum < P.length)
    (hsum : P.length ≤ cs.sum) :
    (readChunks cs
        ((Conn.Write { NewFrameConnection [] 0 with PayloadType := op } key P none).2)).1
      = .ok P := by
  rcases cs with _ | ⟨c, cs⟩
  · have hP0 : P.length = 0 := by simpa using hsum
    have hnil : P = [] := List.length_eq_zero.mp hP0
    subst hnil
    simp [readChunks]
  · have h0 : 0 < P.length := by
      have := hcs 0 (by simp)
      simpa using this
    have hs : P.length ≤ c + cs.sum := by simpa using hsum
    set conn1 := (Conn.Write { NewFrameConnection [] 0 with PayloadType := op } key P none).2
      with hconn1
    have hw := write_eq op key P none hkey
    have hstream : conn1.stream = preambule ++ encData key op P.length ++ xorMask key 0 P := by
      rw [hconn1]
      simp [Conn.Write, NewFrameConnection, hw]
    have hfr : conn1.frameReader = none := by
      rw [hconn1]
      simp [Conn.Write, NewFrameConnection]
    have hread := connRead_fresh conn1 key op P c hkey hop hop8 hP hfr h0 hstream
    simp only [readChunks]
    rw [hread]
    dsimp only []
    have hj' : min c P.length ≤ P.length := Nat.min_le_right _ _
    have H' : ∀ i, i < cs.length → min c P.length + (cs.take i).sum < P.length := by
      intro i hi
      have := hcs (i + 1) (by simpa using hi)
      simp only [List.take_succ_cons, List.sum_cons] at this
      have hmc : min c P.length ≤ c := Nat.min_le_left _ _
      omega
    rw [readChunks_mid _ _ P cs (min c P.length) hj' H']
    dsimp only []
    have hout : P.take (min c P.length) ++ (P.drop (min c P.length)).take cs.sum = P := by
      rw [← take_add_split P (min c P.length) cs.sum]
      apply List.take_of_length_le
      have hmc : min c P.length ≤ c := Nat.min_le_left _ _
      rcases Nat.le_total c P.length with hcle | hcle
      · rw [Nat.min_eq_left hcle]
        omega
      · rw [Nat.min_eq_right hcle]
        omega
    rw [hout]

theorem HandleFrame_close (pt : Nat) (fr : tcpFrameReader)
    (h : fr.header.OpCode = CloseFrame) : HandleFrame pt fr = .error .eof := by
  simp [HandleFrame, h, ContinuationFrame, TextFrame, BinaryFrame, CloseFrame]

/-- Claim C2 (amended): whenever the decoded frame's declared payload length
is nonnegative as Go's `int64` (below `2 ^ 63`) and exceeds the configured
maximum payload size (`0` meaning `DefaultMaxPayloadBytes`), `Conn.ReadFrame`
drains the frame's payload off the stream and fails with `ErrFrameTooLarge`,
returning no data.  (A declared 8-byte length with the top bit set reads as a
negative `int64` and skips the signed size check: see the counterexample.) -/
theorem c2_frame_too_large (conn : Conn) (fr : tcpFrameReader) (s2 : List Nat)
    (hnone : conn.frameReader = none)
    (hdec : NewFrameReader conn.stream = (.ok fr, s2))
    (hop : fr.header.OpCode ≠ CloseFrame)
    (hbound : fr.header.Length < 2 ^ 63)
    (hmax : (if conn.MaxPayloadBytes = 0 then DefaultMaxPayloadBytes else conn.MaxPayloadBytes)
        < fr.header.Length) :
    (Conn.ReadFrame conn).1 = .error .frameTooLarge
    ∧ (Conn.ReadFrame conn).2.stream = s2.drop fr.remaining := by
  have hmaxI : (((if conn.MaxPayloadBytes = 0 then DefaultMaxPayloadBytes
      else conn.MaxPayloadBytes) : Nat) : Int) < int64Of fr.header.Length := by
    unfold int64Of
    rw [if_pos hbound]
    exact_mod_cast hmax
  have hRF : Conn.ReadFrame conn
      = (.error .frameTooLarge,
         { conn with stream := s2.drop fr.remaining,
                     handlerPayloadType := handledPt conn.handlerPayloadType fr.header.OpCode }) := by
    dsimp only [Conn.ReadFrame]
    rw [hnone]
    dsimp only []
    rw [hdec]
    dsimp only []
    rw [HandleFrame_not_close_hf conn.handlerPayloadType fr hop]
    dsimp only [handledFrame]
    rw [if_pos hmaxI, hnone]
  rw [hRF]
  exact ⟨rfl, rfl⟩

/-- Claim C2 (counterexample): a wire frame declaring the 8-byte payload
length `2 ^ 63` (top bit set) decodes to a frame whose declared length far
exceeds the configured maximum of 10, yet `Conn.ReadFrame` does not fail with
the frame-too-large error: the declared length is negative as `int64`, the
signed size check is skipped, and the call returns an empty payload with no
error. -/
theorem c2_counterexample :
    ((NewFrameReader c2advConn.stream).1.map (fun fr => fr.header.Length) = .ok (2 ^ 63))
    ∧ c2advConn.MaxPayloadBytes = 10
    ∧ (if (10 : Nat) = 0 then DefaultMaxPayloadBytes else 10) < 2 ^ 63
    ∧ (Conn.ReadFrame c2advConn).1 = .ok []
    ∧ (Conn.ReadFrame c2advConn).1 ≠ .error .frameTooLarge := by
  refine ⟨by decide, by decide, by decide, by decide, by decide⟩

theorem c2_witness :
    c2conn.frameReader = none
    ∧ NewFrameReader c2conn.stream = (.ok c2frame, List.replicate 12 7)
    ∧ c2frame.header.OpCode ≠ CloseFrame
    ∧ (if c2conn.MaxPayloadBytes = 0 then DefaultMaxPayloadBytes else c2conn.MaxPayloadBytes)
        < c2frame.header.Length
    ∧ ((Conn.ReadFrame c2conn).1 = .error .frameTooLarge
       ∧ (Conn.ReadFrame c2conn).2.stream = (List.replicate 12 7).drop c2frame.remaining) :=
  ⟨by decide, by decide, by decide, by decide,
   c2_frame_too_large c2conn c2frame (List.replicate 12 7) (by decide) (by decide) (by decide)
     (by decide) (by decide)⟩

/-- Claim C3: a close-opcode frame makes the handler signal end-of-stream
(`io.EOF`) without returning a frame, and both `Conn.Read` and
`Conn.ReadFrame` surface that as the call's failure; every other opcode makes
the handler return a frame with no error. -/
theorem c3_close_eof :
    (∀ (pt : Nat) (fr : tcpFrameReader), fr.header.OpCode = CloseFrame →
        HandleFrame pt fr = .error .eof)
    ∧ (∀ (pt : Nat) (fr : tcpFrameReader), fr.header.OpCode ≠ CloseFrame →
        ∃ fr2 pt2, HandleFrame pt fr = .ok (fr2, pt2))
    ∧ (∀ (conn : Conn) (k : Nat) (fr : tcpFrameReader) (s2 : List Nat),
        conn.frameReader = none → NewFrameReader conn.stream = (.ok fr, s2) →
        fr.header.OpCode = CloseFrame →
        (Conn.Read conn k).1 = .error .eof ∧ (Conn.ReadFrame conn).1 = .error .eof) := by
  refine ⟨fun pt fr h => HandleFrame_close pt fr h,
          fun pt fr h => ⟨_, _, HandleFrame_not_close_hf pt fr h⟩, ?_⟩
  intro conn k fr s2 hnone hdec hclose
  constructor
  · show (connReadLoop (conn.stream.length + 1 + 1) conn k).1 = .error Err.eof
    dsimp only [connReadLoop]
    rw [hnone]
    dsimp only []
    rw [hdec]
    dsimp only []
    rw [HandleFrame_close conn.handlerPayloadType fr hclose]
  · dsimp only [Conn.ReadFrame]
    rw [hnone]
    dsimp only []
    rw [hdec]
    dsimp only []
    rw [HandleFrame_close conn.handlerPayloadType fr hclose]

theorem c3_witness :
    closeConn.frameReader = none
    ∧ NewFrameReader closeConn.stream = (.ok closeFrameW, [3, 232])
    ∧ closeFrameW.header.OpCode = CloseFrame
    ∧ ((Conn.Read closeConn 5).1 = .error .eof ∧ (Conn.ReadFrame closeConn).1 = .error .eof) :=
  ⟨by decide, by decide, by decide,
   c3_close_eof.2.2 closeConn 5 closeFrameW [3, 232] (by decide) (by decide) (by decide)⟩

/-- Claim C4: a continuation frame's reported opcode is rewritten to the held
payload type, which is the opcode of the most recently handled text or binary
frame; in particular, a text frame followed by a continuation frame makes the
continuation frame report opcode text. -/
theorem c4_continuation :
    (∀ (pt : Nat) (fr : tcpFrameReader), fr.header.OpCode = ContinuationFrame →
        HandleFrame pt fr
          = .ok ({ fr with header := { fr.header with OpCode := pt } }, pt))
    ∧ (∀ (pt : Nat) (ft fc : tcpFrameReader),
        ft.header.OpCode = TextFrame → fc.header.OpCode = ContinuationFrame →
        HandleFrame pt ft = .ok (ft, TextFrame)
          ∧ (HandleFrame TextFrame fc).map (fun p => p.1.header.OpCode) = .ok TextFrame) := by
  constructor
  · intro pt fr h
    simp [HandleFrame, h]
  · intro pt ft fc hft hfc
    constructor
    · have hne : ft.header.OpCode ≠ CloseFrame := by rw [hft]; decide
      rw [HandleFrame_not_close_hf pt ft hne]
      unfold handledFrame
      have hop1 : handledOp pt ft.header.OpCode = ft.header.OpCode := by
        rw [hft]
        unfold handledOp
        simp [TextFrame, ContinuationFrame]
      have hpt1 : handledPt pt ft.header.OpCode = TextFrame := by
        unfold handledPt
        rw [hft]
        simp
      rw [hop1, hpt1]
    · simp [HandleFrame, hfc, Except.map]

theorem c4_witness :
    textFrameW.header.OpCode = TextFrame
    ∧ contFrameW.header.OpCode = ContinuationFrame
    ∧ (HandleFrame 0 textFrameW = .ok (textFrameW, TextFrame)
       ∧ (HandleFrame TextFrame contFrameW).map (fun p => p.1.header.OpCode) = .ok TextFrame) :=
  ⟨by decide, by decide, c4_continuation.2 0 textFrameW contFrameW (by decide) (by decide)⟩

theorem c1_witness :
    validKey (some [1, 2, 3, 4]) ∧ (1 : Nat) < 16 ∧ (1 : Nat) ≠ CloseFrame
    ∧ ([10, 20, 30] : List Nat).length < 2 ^ 63
    ∧ (∀ i, i < ([2, 5] : List Nat).length →
        (([2, 5] : List Nat).take i).sum < ([10, 20, 30] : List Nat).length)
    ∧ ([10, 20, 30] : List Nat).length ≤ ([2, 5] : List Nat).sum
    ∧ (readChunks [2, 5]
        ((Conn.Write { NewFrameConnection [] 0 with PayloadType := 1 } (some [1, 2, 3, 4])
            [10, 20, 30] none).2)).1 = .ok [10, 20, 30] :=
  ⟨by decide, by decide, by decide, by decide, by decide, by decide,
   c1_write_read_roundtrip [10, 20, 30] (some [1, 2, 3, 4]) 1 [2, 5] (by decide) (by decide)
     (by decide) (by decide) (by decide) (by decide)⟩

/-- Claim C5: payload lengths 125, 126, 65535 and 65536 produce writer headers
with 1, 3, 3 and 9 bytes beyond the first header byte (the length-indicator
byte plus 0, 2, 2, 8 big-endian extended-length bytes), so the written frame
takes 4 + (1 + extra) + L bytes, and decoding each produced frame yields back
the same payload length. -/
theorem c5_length_boundaries :
    ((tcpFrameWriter.Write (NewFrameWriter TextFrame none) (List.replicate 125 0) none).1
        = 4 + (1 + 1) + 125
      ∧ ((NewFrameReader
            (tcpFrameWriter.Write (NewFrameWriter TextFrame none) (List.replicate 125 0)
              none).2.2).1.map (fun fr => fr.header.Length) = .ok 125))
    ∧ ((tcpFrameWriter.Write (NewFrameWriter TextFrame none) (List.replicate 126 0) none).1
        = 4 + (1 + 3) + 126
      ∧ ((NewFrameReader
            (tcpFrameWriter.Write (NewFrameWriter TextFrame none) (List.replicate 126 0)
              none).2.2).1.map (fun fr => fr.header.Length) = .ok 126))
    ∧ ((tcpFrameWriter.Write (NewFrameWriter TextFrame none) (List.replicate 65535 0) none).1
        = 4 + (1 + 3) + 65535
      ∧ ((NewFrameReader
            (tcpFrameWriter.Write (NewFrameWriter TextFrame none) (List.replicate 65535 0)
              none).2.2).1.map (fun fr => fr.header.Length) = .ok 65535))
    ∧ ((tcpFrameWriter.Write (NewFrameWriter TextFrame none) (List.replicate 65536 0) none).1
        = 4 + (1 + 9) + 65536
      ∧ ((NewFrameReader
            (tcpFrameWriter.Write (NewFrameWriter TextFrame none) (List.replicate 65536 0)
              none).2.2).1.map (fun fr => fr.header.Length) = .ok 65536)) := by
  have hkey : validKey (none : Option (List Nat)) := trivial
  refine ⟨?_, ?_, ?_, ?_⟩ <;>
  · constructor
    · rw [write_eq TextFrame none _ none hkey]
      rw [List.length_replicate]
      norm_num [encData, encB2, encExt]
    · rw [write_eq TextFrame none _ none hkey]
      dsimp only []
      rw [decode_enc_frame TextFrame none _ (by decide) hkey
        (by rw [List.length_replicate]; norm_num)]
      dsimp only [decFrame]
      rw [List.length_replicate]
      rfl

/-- Claim C6 (counterexample): `Conn.Write` of the 1-byte message `[42]`
returns 7 — the preamble, header and payload bytes written — not the payload
count 1 that the claim states. -/
theorem c6_counterexample :
    (Conn.Write (NewFrameConnection [] 0) none [42] none).1 = (7, none)
    ∧ (7 : Nat) ≠ ([42] : List Nat).length := by
  constructor
  · decide
  · decide

/-- Claim C6 (amended): `Conn.Write` returns the total byte count the frame
writer reports — 4 preamble bytes, plus the header (2 bytes, plus 2 or 8
extended-length bytes for larger payloads, plus 4 key bytes when masking),
plus the payload length — not the payload count alone. -/
theorem c6_amended (conn : Conn) (key : Option (List Nat)) (msg : List Nat)
    (ferr : Option Err) (hkey : validKey key) :
    (Conn.Write conn key msg ferr).1.1
      = 4 + ((2 + (if msg.length ≤ 125 then 0 else if msg.length < 65536 then 2 else 8))
          + (if key.isSome then 4 else 0)) + msg.length := by
  have hw := write_eq conn.PayloadType key msg ferr hkey
  dsimp only [Conn.Write]
  rw [hw]
  dsimp only []
  have henc : (encData key conn.PayloadType msg.length).length
      = (2 + (if msg.length ≤ 125 then 0 else if msg.length < 65536 then 2 else 8))
        + (if key.isSome then 4 else 0) := by
    rcases key with _ | ks
    · simp only [encData, encB2, encExt, List.length_cons, List.length_append,
        Option.getD_none, Option.isSome_none, List.length_nil, Bool.false_eq_true, if_false]
      split_ifs <;> simp
    · have hk : ks.length = 4 := hkey
      simp only [encData, encB2, encExt, List.length_cons, List.length_append,
        Option.getD_some, Option.isSome_some, if_true, hk]
      split_ifs <;> simp
  rw [henc]

theorem c6_amended_witness :
    validKey (none : Option (List Nat))
    ∧ (Conn.Write (NewFrameConnection [] 0) none [42] none).1.1
        = 4 + ((2 + (if ([42] : List Nat).length ≤ 125 then 0
              else if ([42] : List Nat).length < 65536 then 2 else 8))
          + (if (none : Option (List Nat)).isSome then 4 else 0)) + ([42] : List Nat).length :=
  ⟨trivial, c6_amended (NewFrameConnection [] 0) none [42] none trivial⟩

/-- Claim C7 (counterexample): for the wire frame with fin/text first byte,
1-byte payload `[7]` and no mask, the decoder consumes 6 header bytes
(preamble included) but reports `Len = 3`, not the 7 the claim's accounting
(header bytes including preamble plus payload) demands. -/
theorem c7_counterexample :
    ((NewFrameReader [0x5A, 0xA5, 0x5A, 0xA5, 0x81, 1, 7]).1.map (fun fr => fr.length)
        = .ok 3)
    ∧ (3 : Nat) ≠ (4 + 2) + 1 := by
  constructor
  · decide
  · decide

/-- Claim C7 (amended): a successfully decoded frame's reported total length
`Len` equals the raw header bytes collected after the preamble plus the
payload length; the 4 preamble bytes are consumed from the stream but not
counted in `Len`. -/
theorem c7_amended (s : List Nat) (fr : tcpFrameReader) (s2 : List Nat)
    (h : NewFrameReader s = (.ok fr, s2)) :
    fr.length = fr.header.data.length + fr.header.Length
    ∧ s.length = (4 + fr.header.data.length) + s2.length :=
  NewFrameReader_length_spec s fr s2 h

theorem c7_amended_witness :
    NewFrameReader [90, 165, 90, 165, 129, 1, 7] = (.ok c7frame, [7])
    ∧ (c7frame.length = c7frame.header.data.length + c7frame.header.Length
       ∧ ([90, 165, 90, 165, 129, 1, 7] : List Nat).length
           = (4 + c7frame.header.data.length) + ([7] : List Nat).length) :=
  ⟨by decide, c7_amended [90, 165, 90, 165, 129, 1, 7] c7frame [7] (by decide)⟩

/-- Claim C8: `Conn.Close` writes one close frame — opcode 8, payload the
2-byte big-endian default status — then closes the underlying stream resource
unconditionally (the `true` flag); the close-frame write error takes
precedence over the stream-close error; `NewFrameConnection` configures the
default status 1000, whose big-endian bytes are `[3, 232]`. -/
theorem c8_close_frame :
    (∀ (conn : Conn) (we re : Option Err),
        Conn.Close conn none we re
          = ((if we.isSome then we else re),
             { conn with stream := conn.stream
                 ++ (preambule ++ [136, 2] ++ be16 conn.defaultCloseStatus) }, true))
    ∧ (∀ (s : List Nat) (maxP : Nat), (NewFrameConnection s maxP).defaultCloseStatus = 1000)
    ∧ be16 1000 = [3, 232] := by
  refine ⟨?_, fun s maxP => rfl, by decide⟩
  intro conn we re
  dsimp only [Conn.Close, Conn.WriteClose]
  have hlen : (be16 conn.defaultCloseStatus).length = 2 := rfl
  have hw := write_eq CloseFrame none (be16 conn.defaultCloseStatus) we trivial
  rw [hw, hlen]
  dsimp only []
  have henc : encData none CloseFrame 2 = [136, 2] := by decide
  rw [henc]
  cases we <;> rfl

/-- Claim C9 (counterexample): the zero-value handler state used by every
constructor call site is `0` (`ContinuationFrame`), not `UnknownFrame = 255`,
so a continuation frame handled before any text/binary frame is reported with
opcode 0, not with the unknown payload type. -/
theorem c9_counterexample :
    ((HandleFrame tcpFrameHandlerZero contFrameC9).map (fun p => p.1.header.OpCode)
        = .ok 0)
    ∧ tcpFrameHandlerZero ≠ UnknownFrame
    ∧ (0 : Nat) ≠ UnknownFrame := by
  refine ⟨by decide, by decide, by decide⟩

/-- Claim C9 (amended): the handler's held payload type starts at the Go zero
value 0 (`ContinuationFrame`), so a continuation frame handled before any
text or binary frame keeps opcode 0 — the continuation opcode, not
`UnknownFrame`. -/
theorem c9_amended (fr : tcpFrameReader) (h : fr.header.OpCode = ContinuationFrame) :
    tcpFrameHandlerZero = ContinuationFrame
    ∧ HandleFrame tcpFrameHandlerZero fr
        = .ok ({ fr with header := { fr.header with OpCode := ContinuationFrame } },
               ContinuationFrame) := by
  constructor
  · rfl
  · simp [HandleFrame, h, tcpFrameHandlerZero, ContinuationFrame]

theorem c9_amended_witness :
    contFrameC9.header.OpCode = ContinuationFrame
    ∧ (tcpFrameHandlerZero = ContinuationFrame
       ∧ HandleFrame tcpFrameHandlerZero contFrameC9
           = .ok ({ contFrameC9 with
                     header := { contFrameC9.header with OpCode := ContinuationFrame } },
                  ContinuationFrame)) :=
  ⟨by decide, c9_amended contFrameC9 (by decide)⟩

end Gotcpws
